import Mathlib

/-!
Shallow embedding of the rustfoil manifest pipeline.

Source files under verification: `src/index.rs` (the `Index` document, its
serde serialization, `FileEntry`, `ParsedFileInfo`) and `src/main.rs`
(`RustfoilService::generate_index`, `RustfoilService::output_index`,
`RustfoilService::scan_folder` and the file filter closure inside it).

Modelling conventions:
- Rust `u64`/`usize` arithmetic is modelled on `Nat` with explicit
  wrap-around `% 2 ^ 64` where overflow can occur (release-build semantics).
- Rust `String` is modelled as Lean `String`; byte lengths (`String::len`)
  are computed through an explicit UTF-8 byte model (`utf8Bytes`).
- Fallible Rust code returning `Result` is modelled with `Except`.
- Logging and progress-bar calls are I/O plumbing declared out of scope by
  the specification and are dropped from the embedding.
-/

namespace Rustfoil

/-! ## UTF-8 and percent-encoding

Model of `percent_encoding::utf8_percent_encode(name, NON_ALPHANUMERIC)`
used by `ParsedFileInfo::new` in `src/index.rs`.  The crate works on the
UTF-8 bytes of the input: an ASCII alphanumeric byte passes through, every
other byte (including every byte of a multi-byte code point) becomes `%HH`
with uppercase hex digits. -/

/-- UTF-8 encoding of one code point, as a list of byte values. -/
def utf8Bytes (c : Char) : List Nat :=
  let n := c.toNat
  if n < 128 then [n]
  else if n < 2048 then [192 + n / 64, 128 + n % 64]
  else if n < 65536 then [224 + n / 4096, 128 + (n / 64) % 64, 128 + n % 64]
  else [240 + n / 262144, 128 + (n / 4096) % 64, 128 + (n / 64) % 64, 128 + n % 64]

/-- Byte length of a string, i.e. Rust `String::len`. -/
def utf8Len (s : String) : Nat :=
  (s.toList.map (fun c => (utf8Bytes c).length)).sum

/-- Is the byte value an ASCII alphanumeric (the complement of the
`NON_ALPHANUMERIC` ascii set)? -/
def isAsciiAlnumByte (b : Nat) : Bool :=
  decide ((48 ≤ b ∧ b ≤ 57) ∨ (65 ≤ b ∧ b ≤ 90) ∨ (97 ≤ b ∧ b ≤ 122))

/-- Uppercase hexadecimal digit for a value below 16. -/
def hexUpper (n : Nat) : Char :=
  if n < 10 then Char.ofNat (48 + n) else Char.ofNat (55 + n)

/-- Percent-encoding of a single byte: alphanumerics pass through, anything
else becomes a percent escape with two uppercase hex digits. -/
def encodeByte (b : Nat) : List Char :=
  if isAsciiAlnumByte b then [Char.ofNat (b % 256)]
  else ['%', hexUpper ((b / 16) % 16), hexUpper (b % 16)]

/-- `utf8_percent_encode(s, NON_ALPHANUMERIC).to_string()`. -/
def percentEncode (s : String) : String :=
  String.mk ((s.toList.flatMap utf8Bytes).flatMap encodeByte)

/-! ## Data model (`src/index.rs`) -/

/-- `gdrive::FileInfo` (module not under src/; its fields are fixed by the
uses in `ParsedFileInfo::new` and by the FileDescriptor data model of the
spec: uninterpreted remote id, display name, size as decimal text, shared
flag). -/
structure FileInfo where
  id : String
  size : String
  name : String
  shared : Bool
deriving DecidableEq

/-- `index::ParsedFileInfo`. -/
structure ParsedFileInfo where
  id : String
  size : String
  name : String
  name_encoded : String
  shared : Bool
deriving DecidableEq

/-- `ParsedFileInfo::new` (`src/index.rs`): derives `name_encoded` from the
name by percent-encoding with the `NON_ALPHANUMERIC` set. -/
def ParsedFileInfo.new (info : FileInfo) : ParsedFileInfo :=
  { id := info.id
    size := info.size
    name := info.name
    name_encoded := percentEncode info.name
    shared := info.shared }

/-- `index::FileEntry`: one `files` entry, a locator url plus a `u64` size
(values produced by the parser are below `2 ^ 64`). -/
structure FileEntry where
  url : String
  size : Nat
deriving DecidableEq

/-- `FileEntry::new`. -/
def FileEntry.new (url : String) (size : Nat) : FileEntry :=
  { url := url, size := size }

/-- `index::Index`: the manifest document.  All fields are `Option`s and
`#[skip_serializing_none]` omits the `none` ones from the serialized form.
Note on `version`: `src/index.rs` declares it `Option<f64>`, but
`generate_index` assigns the `Option<String>` value `min_version` to it
verbatim; the embedding follows the assignment and uses `String`. -/
structure Index where
  files : Option (List FileEntry)
  directories : Option (List String)
  success : Option String
  referrer : Option String
  google_api_key : Option String
  one_fichier_keys : Option (List String)
  headers : Option (List String)
  version : Option String
  client_cert_pub : Option String
  client_cert_key : Option String
  theme_blacklist : Option (List String)
  theme_whitelist : Option (List String)
  theme_error : Option String
deriving DecidableEq

/-- `Index::new`: every field starts out absent. -/
def Index.new : Index :=
  { files := none
    directories := none
    success := none
    referrer := none
    google_api_key := none
    one_fichier_keys := none
    headers := none
    version := none
    client_cert_pub := none
    client_cert_key := none
    theme_blacklist := none
    theme_whitelist := none
    theme_error := none }

/-! ## Serde serialization of `Index`

`Index` derives `Serialize` with `#[skip_serializing_none]`.  The serde
`rename` attributes on it are all `rename(deserialize = "...")`, which
renames fields **only for deserialization**; serialization therefore uses
the Rust field identifiers (`google_api_key`, `one_fichier_keys`, ...).
The serialized form is modelled as the ordered list of (field name, value)
pairs that serde emits, skipping the `none` fields. -/

/-- A serialized field value (the JSON shapes that occur in `Index`). -/
inductive FieldVal where
  | entries : List FileEntry → FieldVal
  | str : String → FieldVal
  | strList : List String → FieldVal
deriving DecidableEq

/-- One optional field of the serialized struct: nothing when the field is
`none` (skip_serializing_none), one named pair when it is set. -/
def optField (nm : String) (f : α → FieldVal) : Option α → List (String × FieldVal)
  | none => []
  | some v => [(nm, f v)]

/-- The serialized form of an `Index`: fields in declaration order, `none`
fields omitted, names as serde serializes them (no serialize-side rename). -/
def serializeIndex (i : Index) : List (String × FieldVal) :=
  optField ("files") FieldVal.entries i.files ++
  optField ("directories") FieldVal.strList i.directories ++
  optField ("success") FieldVal.str i.success ++
  optField ("referrer") FieldVal.str i.referrer ++
  optField ("google_api_key") FieldVal.str i.google_api_key ++
  optField ("one_fichier_keys") FieldVal.strList i.one_fichier_keys ++
  optField ("headers") FieldVal.strList i.headers ++
  optField ("version") FieldVal.str i.version ++
  optField ("client_cert_pub") FieldVal.str i.client_cert_pub ++
  optField ("client_cert_key") FieldVal.str i.client_cert_key ++
  optField ("theme_blacklist") FieldVal.strList i.theme_blacklist ++
  optField ("theme_whitelist") FieldVal.strList i.theme_whitelist ++
  optField ("theme_error") FieldVal.str i.theme_error

/-! ## Configuration (`Input` in `src/main.rs`)

Only the fields the verified pipeline reads; CLI plumbing fields
(credential paths, upload/share switches, verbosity) are omitted. -/

inductive CompressionFlag where
  | Off
  | ZSTD
  | Zlib
deriving DecidableEq

inductive EncryptionFlag where
  | Encrypt
  | NoEncrypt
deriving DecidableEq

structure Input where
  folder_ids : List String
  no_recursion : Bool
  add_nsw_files_without_title_id : Bool
  add_non_nsw_files : Bool
  success : Option String
  referrer : Option String
  google_api_key : Option String
  one_fichier_keys : Option (List String)
  headers : Option (List String)
  min_version : Option String
  theme_blacklist : Option (List String)
  theme_whitelist : Option (List String)
  theme_error : Option String
  public_key : Option String
  compression : CompressionFlag
deriving DecidableEq

/-! ## `u64::from_str_radix(s, 10)`

Model of the Rust core integer parser for an unsigned 64-bit target and
radix 10: an empty string is `Empty`; a lone sign is `InvalidDigit`; a
leading `+` is stripped (a `-` is not a valid sign for an unsigned type and
then fails as a digit); every remaining character must be a decimal digit
and the accumulated value must stay below `2 ^ 64`, else `PosOverflow`. -/

inductive IntErrorKind where
  | empty
  | invalidDigit
  | posOverflow
deriving DecidableEq

/-- `char::to_digit(10)`. -/
def digitVal (c : Char) : Option Nat :=
  if ('0' ≤ c ∧ c ≤ '9') then some (c.toNat - 48) else none

/-- The digit-accumulation loop with checked arithmetic. -/
def parseDigitsU64 : List Char → Nat → Except IntErrorKind Nat
  | [], acc => .ok acc
  | c :: rest, acc =>
    match digitVal c with
    | none => .error .invalidDigit
    | some d =>
      let acc2 := acc * 10 + d
      if acc2 < 2 ^ 64 then parseDigitsU64 rest acc2 else .error .posOverflow

/-- `u64::from_str_radix(s, 10)`. -/
def u64FromStrRadix10 (s : String) : Except IntErrorKind Nat :=
  match s.toList with
  | [] => .error .empty
  | c :: rest =>
    if c = '+' ∨ c = '-' then
      if rest = [] then .error .invalidDigit
      else if c = '+' then parseDigitsU64 rest 0
      else parseDigitsU64 (c :: rest) 0
    else parseDigitsU64 (c :: rest) 0

/-! ## `generate_index` (`src/main.rs`, lines 154-219) -/

/-- The locator url built by `generate_index`:
`format!("gdrive:{}#{}", info.id, info.name_encoded)`. -/
def locatorOf (info : ParsedFileInfo) : String :=
  "gdrive:" ++ info.id ++ "#" ++ info.name_encoded

/-- The entry-building loop of `generate_index`: pushes one `FileEntry` per
file in order; the first size that fails to parse aborts the run with that
parse error (the `?` operator). -/
def buildEntries : List ParsedFileInfo → Except IntErrorKind (List FileEntry)
  | [] => .ok []
  | info :: rest =>
    match u64FromStrRadix10 info.size with
    | .error e => .error e
    | .ok n =>
      match buildEntries rest with
      | .error e => .error e
      | .ok tail => .ok (FileEntry.new (locatorOf info) n :: tail)

/-- The metadata block of `generate_index`: one
`if input.f.is_some() { index.f = Some(input.f.clone().unwrap()) }`
statement per configurable field, in source order. -/
def applyMetadata (cfg : Input) (i : Index) : Index :=
  let i := match cfg.success with
    | some v => { i with success := some v }
    | none => i
  let i := match cfg.referrer with
    | some v => { i with referrer := some v }
    | none => i
  let i := match cfg.google_api_key with
    | some v => { i with google_api_key := some v }
    | none => i
  let i := match cfg.one_fichier_keys with
    | some v => { i with one_fichier_keys := some v }
    | none => i
  let i := match cfg.headers with
    | some v => { i with headers := some v }
    | none => i
  let i := match cfg.min_version with
    | some v => { i with version := some v }
    | none => i
  let i := match cfg.theme_blacklist with
    | some v => { i with theme_blacklist := some v }
    | none => i
  let i := match cfg.theme_whitelist with
    | some v => { i with theme_whitelist := some v }
    | none => i
  let i := match cfg.theme_error with
    | some v => { i with theme_error := some v }
    | none => i
  i

/-- `RustfoilService::generate_index`: builds the entries (first parse
failure is fatal), stores them in `index.files`, then copies each
configured metadata field into the index. -/
def generateIndex (cfg : Input) (files : List ParsedFileInfo) : Except IntErrorKind Index :=
  match buildEntries files with
  | .error e => .error e
  | .ok entries => .ok (applyMetadata cfg { Index.new with files := some entries })

/-! ## The file filter and `scan_folder` (`src/main.rs`, lines 313-368) -/

/-- The extension string computed by the filter closure:
`file.name.chars().skip(file.name.len() - 4).take(4).collect()`.
`file.name.len()` is the byte length; the subtraction is `usize`
arithmetic, modelled with wrap-around `% 2 ^ 64` (so for a name shorter
than 4 bytes the skip count is huge and the collected string is empty). -/
def extensionOf (name : String) : String :=
  String.mk ((name.toList.drop ((utf8Len name + (2 ^ 64 - 4)) % 2 ^ 64)).take 4)

/-- `vec![".nsp", ".nsz", ".xci", ".xcz"]`. -/
def recognizedExtensions : List String :=
  [".nsp", ".nsz", ".xci", ".xcz"]

/-- Is `c` in the regex character class `[0-9A-Fa-f]`? -/
def isHexClass (c : Char) : Bool :=
  decide (('0' ≤ c ∧ c ≤ '9') ∨ ('A' ≤ c ∧ c ≤ 'F') ∨ ('a' ≤ c ∧ c ≤ 'f'))

/-- Does the regex `%5B[0-9A-Fa-f]{16}%5D` match starting at the head of
the list? -/
def tokenMatchesAt (l : List Char) : Bool :=
  match l with
  | '%' :: '5' :: 'B' :: rest =>
    decide ((rest.take 16).length = 16) && (rest.take 16).all isHexClass &&
      decide ((rest.drop 16).take 3 = ['%', '5', 'D'])
  | _ => false

/-- `Regex::is_match` for the fixed pattern `%5B[0-9A-Fa-f]{16}%5D`: true
iff the pattern matches at some position. -/
def reIsMatch : List Char → Bool
  | [] => false
  | c :: rest => tokenMatchesAt (c :: rest) || reIsMatch rest

/-- The filter closure of `scan_folder`, verbatim: `keep` starts true; if
the non-NSW-files override is off it is assigned the extension-list check;
if the no-title-id override is off it is then **assigned** (not conjoined
with) the regex match on `name_encoded`. -/
def keepFile (addNonNswFiles addNswFilesWithoutTitleId : Bool) (file : ParsedFileInfo) : Bool :=
  let keep := true
  let keep := if !addNonNswFiles then
      recognizedExtensions.contains (extensionOf file.name)
    else keep
  let keep := if !addNswFilesWithoutTitleId then
      reIsMatch file.name_encoded.toList
    else keep
  keep

/-- The File Filter stage: `.filter(|file| ...)` over a folder listing. -/
def fileFilter (addNonNswFiles addNswFilesWithoutTitleId : Bool)
    (files : List ParsedFileInfo) : List ParsedFileInfo :=
  files.filter (keepFile addNonNswFiles addNswFilesWithoutTitleId)

/-- `RustfoilService::scan_folder` with the remote store abstracted: for a
fixed run, `listing id` is the full (pagination already flattened, recursion
flag already applied) result of `gdrive.get_all_files_in_folder(id, ...)`.
The folder ids are mapped in input order, each listing is parsed and
filtered, and the per-folder vectors are flattened in order. -/
def scanFolder (listing : String → List FileInfo) (cfg : Input) : List ParsedFileInfo :=
  cfg.folder_ids.flatMap (fun id =>
    fileFilter cfg.add_non_nsw_files cfg.add_nsw_files_without_title_id
      ((listing id).map ParsedFileInfo.new))

/-! ## `output_index` (`src/main.rs`, lines 221-266) and the container -/

/-- Fatal errors of the container conversion stage. -/
inductive TinfoilError where
  | keyLoadError
deriving DecidableEq

/-- The container artifact: header flags (compression tag, encrypted bit),
optional wrapped symmetric key, payload bytes. -/
structure Container where
  compression : CompressionFlag
  encrypted : Bool
  wrappedKey : Option (List Nat)
  payload : List Nat
deriving DecidableEq

/-- Modelled from the spec: `convert_to_tinfoil_format` lives in the
`tinfoil` module, which is not under src/.  Per spec sections 4.4-4.6 it
compresses the serialized manifest, and when encryption is requested it
loads the RSA public key from the configured file — a malformed or
unreadable key file is a fatal error reported before any output bytes are
produced — encrypts, sets the encrypted flag and places the wrapped key
before the ciphertext; with no key configured the encryption stage is a
no-op and the encrypted flag is cleared.  The key file content arrives as
`Option (List Nat)` (`none` = malformed or unreadable); the compression
transform and the hybrid encryption primitive are abstracted as function
parameters (`encryptFn key payload = (wrappedKey, ciphertext)`). -/
def convertToTinfoilFormat (compressFn : List Nat → List Nat)
    (encryptFn : List Nat → List Nat → List Nat × List Nat)
    (json : List Nat) (c : CompressionFlag) (e : EncryptionFlag)
    (keyContent : Option (List Nat)) : Except TinfoilError Container :=
  let compressed := compressFn json
  match e with
  | .NoEncrypt =>
    .ok { compression := c, encrypted := false, wrappedKey := none, payload := compressed }
  | .Encrypt =>
    match keyContent with
    | none => .error .keyLoadError
    | some pk =>
      let p := encryptFn pk compressed
      .ok { compression := c, encrypted := true, wrappedKey := some p.1, payload := p.2 }

/-- `RustfoilService::output_index`: serializes the index, chooses
`Encrypt` iff a public key path is configured, converts to the tinfoil
container and only then writes it to the output path.  The output file is
modelled as `Option Container` state (`none` = not yet created); the `?`
on the conversion returns before the write, leaving the file untouched.
`toJson` abstracts `serde_json::to_string` into payload bytes. -/
def outputIndex (toJson : Index → List Nat)
    (compressFn : List Nat → List Nat)
    (encryptFn : List Nat → List Nat → List Nat × List Nat)
    (cfg : Input) (keyContent : Option (List Nat)) (index : Index)
    (outFile : Option Container) : Except TinfoilError Unit × Option Container :=
  let json := toJson index
  let encryption := if cfg.public_key.isSome then EncryptionFlag.Encrypt
    else EncryptionFlag.NoEncrypt
  match convertToTinfoilFormat compressFn encryptFn json cfg.compression encryption keyContent with
  | .error e => (.error e, outFile)
  | .ok container => (.ok (), some container)

/-- A test fixture: a configuration with no metadata, no public key, empty
folder list and the default (unset) filter overrides. -/
def baseInput : Input :=
  { folder_ids := []
    no_recursion := false
    add_nsw_files_without_title_id := false
    add_non_nsw_files := false
    success := none
    referrer := none
    google_api_key := none
    one_fichier_keys := none
    headers := none
    min_version := none
    theme_blacklist := none
    theme_whitelist := none
    theme_error := none
    public_key := none
    compression := CompressionFlag.ZSTD }

/-! ## Helper lemmas -/

/-- Every code point contributes at least one byte to the UTF-8 form. -/
theorem utf8Bytes_length_pos (c : Char) : 1 ≤ (utf8Bytes c).length := by
  unfold utf8Bytes
  simp only []
  split <;> (try split) <;> (try split) <;> simp

/-- The character count of a string never exceeds its byte length. -/
theorem length_le_utf8Len (s : String) : s.toList.length ≤ utf8Len s := by
  unfold utf8Len
  induction s.toList with
  | nil => simp
  | cons c rest ih =>
    simp only [List.map_cons, List.sum_cons, List.length_cons]
    have := utf8Bytes_length_pos c
    omega

/-- For a name shorter than 4 bytes the wrapped skip count exceeds the
character count, so the collected extension is empty. -/
theorem extensionOf_short (s : String) (h : utf8Len s < 4) : extensionOf s = "" := by
  unfold extensionOf
  have h1 : utf8Len s + (2 ^ 64 - 4) < 2 ^ 64 := by omega
  rw [Nat.mod_eq_of_lt h1]
  have h2 : s.toList.length ≤ utf8Len s + (2 ^ 64 - 4) := by
    have := length_le_utf8Len s
    omega
  rw [List.drop_eq_nil_of_le h2]
  rfl

/-- Membership in one serialized optional field. -/
theorem mem_optField {α : Type} (f : α → FieldVal) (o : Option α) (nm nm2 : String)
    (val : FieldVal) :
    ((nm2, val) ∈ optField nm f o) ↔ (nm2 = nm ∧ ∃ v, o = some v ∧ val = f v) := by
  cases o <;> simp [optField]

/-- Membership in the serialized manifest, field by field. -/
theorem mem_serializeIndex (i : Index) (nm : String) (val : FieldVal) :
    ((nm, val) ∈ serializeIndex i) ↔
      ((nm = "files" ∧ ∃ v, i.files = some v ∧ val = FieldVal.entries v) ∨
       (nm = "directories" ∧ ∃ v, i.directories = some v ∧ val = FieldVal.strList v) ∨
       (nm = "success" ∧ ∃ v, i.success = some v ∧ val = FieldVal.str v) ∨
       (nm = "referrer" ∧ ∃ v, i.referrer = some v ∧ val = FieldVal.str v) ∨
       (nm = "google_api_key" ∧ ∃ v, i.google_api_key = some v ∧ val = FieldVal.str v) ∨
       (nm = "one_fichier_keys" ∧ ∃ v, i.one_fichier_keys = some v ∧ val = FieldVal.strList v) ∨
       (nm = "headers" ∧ ∃ v, i.headers = some v ∧ val = FieldVal.strList v) ∨
       (nm = "version" ∧ ∃ v, i.version = some v ∧ val = FieldVal.str v) ∨
       (nm = "client_cert_pub" ∧ ∃ v, i.client_cert_pub = some v ∧ val = FieldVal.str v) ∨
       (nm = "client_cert_key" ∧ ∃ v, i.client_cert_key = some v ∧ val = FieldVal.str v) ∨
       (nm = "theme_blacklist" ∧ ∃ v, i.theme_blacklist = some v ∧ val = FieldVal.strList v) ∨
       (nm = "theme_whitelist" ∧ ∃ v, i.theme_whitelist = some v ∧ val = FieldVal.strList v) ∨
       (nm = "theme_error" ∧ ∃ v, i.theme_error = some v ∧ val = FieldVal.str v)) := by
  simp [serializeIndex, List.mem_append, mem_optField]

/-- Field-level description of the metadata-copy block of `generate_index`. -/
theorem applyMetadata_fields (cfg : Input) (i : Index) :
    (applyMetadata cfg i).files = i.files ∧
    (applyMetadata cfg i).directories = i.directories ∧
    (applyMetadata cfg i).success = cfg.success.or i.success ∧
    (applyMetadata cfg i).referrer = cfg.referrer.or i.referrer ∧
    (applyMetadata cfg i).google_api_key = cfg.google_api_key.or i.google_api_key ∧
    (applyMetadata cfg i).one_fichier_keys = cfg.one_fichier_keys.or i.one_fichier_keys ∧
    (applyMetadata cfg i).headers = cfg.headers.or i.headers ∧
    (applyMetadata cfg i).version = cfg.min_version.or i.version ∧
    (applyMetadata cfg i).client_cert_pub = i.client_cert_pub ∧
    (applyMetadata cfg i).client_cert_key = i.client_cert_key ∧
    (applyMetadata cfg i).theme_blacklist = cfg.theme_blacklist.or i.theme_blacklist ∧
    (applyMetadata cfg i).theme_whitelist = cfg.theme_whitelist.or i.theme_whitelist ∧
    (applyMetadata cfg i).theme_error = cfg.theme_error.or i.theme_error := by
  unfold applyMetadata
  cases cfg.success <;> cases cfg.referrer <;> cases cfg.google_api_key <;>
    cases cfg.one_fichier_keys <;> cases cfg.headers <;> cases cfg.min_version <;>
    cases cfg.theme_blacklist <;> cases cfg.theme_whitelist <;> cases cfg.theme_error <;>
    simp [Option.or]

/-- Inversion for a successful `generate_index` run: the entries parsed, the
`files` field holds them, and every other field equals its configured value
(or is absent when unconfigurable). -/
theorem generateIndex_ok_elim (cfg : Input) (files : List ParsedFileInfo) (idx : Index)
    (h : generateIndex cfg files = .ok idx) :
    ∃ entries, buildEntries files = .ok entries ∧
      idx.files = some entries ∧ idx.directories = none ∧ idx.success = cfg.success ∧
      idx.referrer = cfg.referrer ∧ idx.google_api_key = cfg.google_api_key ∧
      idx.one_fichier_keys = cfg.one_fichier_keys ∧ idx.headers = cfg.headers ∧
      idx.version = cfg.min_version ∧ idx.client_cert_pub = none ∧
      idx.client_cert_key = none ∧ idx.theme_blacklist = cfg.theme_blacklist ∧
      idx.theme_whitelist = cfg.theme_whitelist ∧ idx.theme_error = cfg.theme_error := by
  unfold generateIndex at h
  cases hb : buildEntries files with
  | error e => rw [hb] at h; exact absurd h (by simp)
  | ok entries =>
    rw [hb] at h
    simp only [Except.ok.injEq] at h
    refine ⟨entries, rfl, ?_⟩
    have F := applyMetadata_fields cfg { Index.new with files := some entries }
    rw [h] at F
    simpa [Index.new, Option.or_none] using F

/-- The entry-building loop fails exactly when some size text fails to
parse as a `u64`. -/
theorem buildEntries_error_iff (files : List ParsedFileInfo) :
    (∃ e, buildEntries files = .error e) ↔
      ∃ f ∈ files, ∃ e, u64FromStrRadix10 f.size = .error e := by
  induction files with
  | nil => simp [buildEntries]
  | cons info rest ih =>
    constructor
    · rintro ⟨e, he⟩
      unfold buildEntries at he
      cases hp : u64FromStrRadix10 info.size with
      | error e2 => exact ⟨info, by simp, e2, hp⟩
      | ok n =>
        rw [hp] at he
        cases hb : buildEntries rest with
        | error e2 =>
          obtain ⟨f, hf, hfe⟩ := ih.mp ⟨e2, hb⟩
          exact ⟨f, by simp [hf], hfe⟩
        | ok tail => rw [hb] at he; simp at he
    · rintro ⟨f, hf, e, hfe⟩
      rcases List.mem_cons.mp hf with rfl | hf2
      · exact ⟨e, by unfold buildEntries; rw [hfe]⟩
      · obtain ⟨e2, hb⟩ := ih.mpr ⟨f, hf2, e, hfe⟩
        cases hp : u64FromStrRadix10 info.size with
        | error e3 => exact ⟨e3, by unfold buildEntries; rw [hp]⟩
        | ok n => exact ⟨e2, by unfold buildEntries; rw [hp, hb]⟩

/-- Every entry built by a successful run carries the locator of its file,
in order. -/
theorem buildEntries_urls (files : List ParsedFileInfo) (entries : List FileEntry)
    (h : buildEntries files = .ok entries) :
    List.Forall₂ (fun (info : ParsedFileInfo) (e : FileEntry) => e.url = locatorOf info)
      files entries := by
  induction files generalizing entries with
  | nil => simp [buildEntries] at h; subst h; exact .nil
  | cons info rest ih =>
    unfold buildEntries at h
    cases hp : u64FromStrRadix10 info.size with
    | error e => rw [hp] at h; simp at h
    | ok n =>
      rw [hp] at h
      cases hb : buildEntries rest with
      | error e => rw [hb] at h; simp at h
      | ok tail =>
        rw [hb] at h
        simp only [Except.ok.injEq] at h
        subst h
        exact .cons rfl (ih tail hb)

/-! ## Claim theorems -/

/-- C1: for every configuration and filtered file list on which
`generate_index` succeeds, the serialized manifest contains each
configurable metadata field exactly when the configuration supplies it,
with the supplied value copied through verbatim, and the unconfigurable
fields (`directories`, client certificates) are omitted entirely. -/
theorem generateIndex_metadata_exact (cfg : Input) (files : List ParsedFileInfo) (idx : Index)
    (h : generateIndex cfg files = .ok idx) :
    (∀ val, (("success", val) ∈ serializeIndex idx) ↔
      ∃ v, cfg.success = some v ∧ val = FieldVal.str v) ∧
    (∀ val, (("referrer", val) ∈ serializeIndex idx) ↔
      ∃ v, cfg.referrer = some v ∧ val = FieldVal.str v) ∧
    (∀ val, (("google_api_key", val) ∈ serializeIndex idx) ↔
      ∃ v, cfg.google_api_key = some v ∧ val = FieldVal.str v) ∧
    (∀ val, (("one_fichier_keys", val) ∈ serializeIndex idx) ↔
      ∃ v, cfg.one_fichier_keys = some v ∧ val = FieldVal.strList v) ∧
    (∀ val, (("headers", val) ∈ serializeIndex idx) ↔
      ∃ v, cfg.headers = some v ∧ val = FieldVal.strList v) ∧
    (∀ val, (("version", val) ∈ serializeIndex idx) ↔
      ∃ v, cfg.min_version = some v ∧ val = FieldVal.str v) ∧
    (∀ val, (("theme_blacklist", val) ∈ serializeIndex idx) ↔
      ∃ v, cfg.theme_blacklist = some v ∧ val = FieldVal.strList v) ∧
    (∀ val, (("theme_whitelist", val) ∈ serializeIndex idx) ↔
      ∃ v, cfg.theme_whitelist = some v ∧ val = FieldVal.strList v) ∧
    (∀ val, (("theme_error", val) ∈ serializeIndex idx) ↔
      ∃ v, cfg.theme_error = some v ∧ val = FieldVal.str v) ∧
    (∀ val, ("directories", val) ∉ serializeIndex idx) ∧
    (∀ val, ("client_cert_pub", val) ∉ serializeIndex idx) ∧
    (∀ val, ("client_cert_key", val) ∉ serializeIndex idx) := by
  obtain ⟨entries, hb, hf, hd, hs, hr, hg, ho, hh, hv, hcp, hck, htb, htw, hte⟩ :=
    generateIndex_ok_elim cfg files idx h
  refine ⟨?_, ?_, ?_, ?_, ?_, ?_, ?_, ?_, ?_, ?_, ?_, ?_⟩ <;> intro val <;>
    rw [mem_serializeIndex] <;>
    simp [hf, hd, hs, hr, hg, ho, hh, hv, hcp, hck, htb, htw, hte]

/-- C1 witness: a run configured with only a success banner serializes it. -/
theorem generateIndex_metadata_exact_witness :
    ("success", FieldVal.str ("ok")) ∈
      serializeIndex { Index.new with files := some [], success := some ("ok") } :=
  ((generateIndex_metadata_exact { baseInput with success := some ("ok") } []
      { Index.new with files := some [], success := some ("ok") } rfl).1
    (FieldVal.str ("ok"))).mpr ⟨"ok", rfl, rfl⟩

/-- C2: the serde renames on `Index` apply only to deserialization, so the
manifest generated from a configuration with the Google API key, 1Fichier
keys, theme blacklist, theme whitelist and theme error set serializes them
under the Rust field names (`google_api_key`, ...) and under none of the
names the external reader expects (`googleApiKey`, `oneFichierKeys`,
`themeBlackList`, `themeWhiteList`, `themeError`). -/
theorem serialize_names_snake_case :
    ∃ idx,
      generateIndex
        { baseInput with
          google_api_key := some ("k")
          one_fichier_keys := some ["f1"]
          theme_blacklist := some ["b"]
          theme_whitelist := some ["w"]
          theme_error := some ("e") } [] = .ok idx ∧
      (serializeIndex idx).map Prod.fst =
        ["files", "google_api_key", "one_fichier_keys",
         "theme_blacklist", "theme_whitelist", "theme_error"] ∧
      "googleApiKey" ∉ (serializeIndex idx).map Prod.fst ∧
      "oneFichierKeys" ∉ (serializeIndex idx).map Prod.fst ∧
      "themeBlackList" ∉ (serializeIndex idx).map Prod.fst ∧
      "themeWhiteList" ∉ (serializeIndex idx).map Prod.fst ∧
      "themeError" ∉ (serializeIndex idx).map Prod.fst :=
  ⟨{ Index.new with
      files := some []
      google_api_key := some ("k")
      one_fichier_keys := some ["f1"]
      theme_blacklist := some ["b"]
      theme_whitelist := some ["w"]
      theme_error := some ("e") },
    rfl, rfl, by decide, by decide, by decide, by decide, by decide⟩

/-- C3: under default policies the filter closure keeps
`Game[0123456789ABCDEF].txt` even though its extension check fails — the
identifier-regex assignment overwrites the extension check result — while
`Game[0123456789ABCDEF].nsp` is kept and `Game.nsp` is rejected. -/
theorem default_filter_overwrites_extension_check :
    keepFile false false
        (ParsedFileInfo.new ⟨"x", "1", "Game[0123456789ABCDEF].txt", false⟩) = true ∧
    recognizedExtensions.contains (extensionOf ("Game[0123456789ABCDEF].txt")) = false ∧
    keepFile false false
        (ParsedFileInfo.new ⟨"x", "1", "Game[0123456789ABCDEF].nsp", false⟩) = true ∧
    keepFile false false (ParsedFileInfo.new ⟨"x", "1", "Game.nsp", false⟩) = false :=
  ⟨rfl, rfl, rfl, rfl⟩

/-- C4: a name shorter than the four-byte extension window yields an empty
extension (the wrapped skip count exceeds the name length), which fails the
extension check; with the extension policy active the file is rejected, and
the filter is a total function (no panic under release, wrap-around,
semantics of the usize subtraction). -/
theorem short_name_fails_extension_check (info : FileInfo) (h : utf8Len info.name < 4) :
    extensionOf info.name = "" ∧
    recognizedExtensions.contains (extensionOf info.name) = false ∧
    keepFile false true (ParsedFileInfo.new info) = false := by
  have he : extensionOf info.name = "" := extensionOf_short info.name h
  refine ⟨he, by rw [he]; rfl, ?_⟩
  simp only [keepFile, ParsedFileInfo.new, Bool.not_false, Bool.not_true, if_true, if_false]
  rw [he]
  rfl

/-- C4 witness: the two-byte name `ab` fails the extension check without
error. -/
theorem short_name_fails_extension_check_witness :
    utf8Len ("ab") < 4 ∧
    (extensionOf ("ab") = "" ∧
     recognizedExtensions.contains (extensionOf ("ab")) = false ∧
     keepFile false true (ParsedFileInfo.new ⟨"i", "1", "ab", false⟩) = false) :=
  ⟨by decide, short_name_fails_extension_check ⟨"i", "1", "ab", false⟩ (by decide)⟩

/-- C5: when a public key is configured but its file is malformed or
unreadable, `output_index` fails with the key-load error and the output
file state is untouched; when no public key is configured the conversion
succeeds with the encrypted flag cleared, no wrapped key, and the payload
passed through the compression stage only. -/
theorem outputIndex_key_failure_and_noencrypt (toJson : Index → List Nat)
    (compressFn : List Nat → List Nat)
    (encryptFn : List Nat → List Nat → List Nat × List Nat)
    (cfg : Input) (keyContent : Option (List Nat)) (index : Index)
    (outFile : Option Container) :
    (cfg.public_key.isSome = true → keyContent = none →
      (outputIndex toJson compressFn encryptFn cfg keyContent index outFile).1 =
          .error .keyLoadError ∧
      (outputIndex toJson compressFn encryptFn cfg keyContent index outFile).2 = outFile) ∧
    (cfg.public_key = none →
      (outputIndex toJson compressFn encryptFn cfg keyContent index outFile).1 = .ok () ∧
      (outputIndex toJson compressFn encryptFn cfg keyContent index outFile).2 =
        some { compression := cfg.compression, encrypted := false, wrappedKey := none,
               payload := compressFn (toJson index) }) := by
  constructor
  · intro h1 h2
    subst h2
    simp [outputIndex, convertToTinfoilFormat, h1]
  · intro h1
    simp [outputIndex, convertToTinfoilFormat, h1]

/-- C5 witness: a malformed key file under a configured key path errors and
leaves a nonexistent output file nonexistent; without a key the container
comes out unencrypted. -/
theorem outputIndex_key_failure_and_noencrypt_witness :
    ((outputIndex (fun _ => []) (fun l => l) (fun k l => (k, l))
        { baseInput with public_key := some ("public.pem") } none Index.new none).1 =
          .error .keyLoadError ∧
     (outputIndex (fun _ => []) (fun l => l) (fun k l => (k, l))
        { baseInput with public_key := some ("public.pem") } none Index.new none).2 = none) ∧
    ((outputIndex (fun _ => []) (fun l => l) (fun k l => (k, l))
        baseInput (some []) Index.new none).1 = .ok () ∧
     (outputIndex (fun _ => []) (fun l => l) (fun k l => (k, l))
        baseInput (some []) Index.new none).2 =
        some { compression := CompressionFlag.ZSTD, encrypted := false, wrappedKey := none,
               payload := [] }) :=
  ⟨(outputIndex_key_failure_and_noencrypt (fun _ => []) (fun l => l) (fun k l => (k, l))
      { baseInput with public_key := some ("public.pem") } none Index.new none).1 rfl rfl,
   (outputIndex_key_failure_and_noencrypt (fun _ => []) (fun l => l) (fun k l => (k, l))
      baseInput (some []) Index.new none).2 rfl⟩

/-- C6 counterexample: two runs whose only difference is the offending file
(`fileA` versus `fileB`) produce the identical error value, a bare
`InvalidDigit` kind, so the error does not identify the offending file. -/
theorem generateIndex_error_is_anonymous :
    generateIndex baseInput [⟨"fileA", "12x", "A", "A", false⟩] = .error .invalidDigit ∧
    generateIndex baseInput [⟨"fileB", "12x", "B", "B", false⟩] = .error .invalidDigit ∧
    ("fileA" : String) ≠ "fileB" :=
  ⟨rfl, rfl, by decide⟩

/-- C6 (amended): `generate_index` fails exactly when some input file has a
size text that `u64::from_str_radix(_, 10)` rejects (empty, invalid digit,
or overflow); the resulting error is the parse-error kind alone. -/
theorem generateIndex_error_iff_bad_size (cfg : Input) (files : List ParsedFileInfo) :
    (∃ e, generateIndex cfg files = .error e) ↔
      ∃ f ∈ files, ∃ e, u64FromStrRadix10 f.size = .error e := by
  constructor
  · rintro ⟨e, he⟩
    unfold generateIndex at he
    cases hb : buildEntries files with
    | error e2 => exact (buildEntries_error_iff files).mp ⟨e2, hb⟩
    | ok entries => rw [hb] at he; simp at he
  · intro hr
    obtain ⟨e2, hb⟩ := (buildEntries_error_iff files).mpr hr
    exact ⟨e2, by unfold generateIndex; rw [hb]⟩

/-- C7: every locator entry of a successful run is the scheme prefix, the
remote id, the `#` separator and the percent-encoded name, in that order,
and `name_encoded` is the percent-encoding recomputed from `name`. -/
theorem locator_entry_structure (cfg : Input) (infos : List FileInfo) (idx : Index)
    (h : generateIndex cfg (infos.map ParsedFileInfo.new) = .ok idx) :
    (∃ entries, idx.files = some entries ∧
      List.Forall₂ (fun (info : FileInfo) (e : FileEntry) =>
        e.url = "gdrive:" ++ info.id ++ "#" ++ percentEncode info.name) infos entries) ∧
    (∀ info : FileInfo,
      (ParsedFileInfo.new info).name_encoded =
        percentEncode ((ParsedFileInfo.new info).name)) := by
  obtain ⟨entries, hb, hf, hrest⟩ := generateIndex_ok_elim cfg (infos.map ParsedFileInfo.new) idx h
  refine ⟨⟨entries, hf, ?_⟩, fun info => rfl⟩
  have h2 := buildEntries_urls (infos.map ParsedFileInfo.new) entries hb
  rw [List.forall₂_map_left_iff] at h2
  exact List.Forall₂.imp (fun a b hx => hx) h2

/-- C7 witness: one file with a space in its name yields the locator
`gdrive:abc#Game%20A`. -/
theorem locator_entry_structure_witness :
    ∃ entries,
      ({ Index.new with
          files := some [FileEntry.new ("gdrive:abc#Game%20A") 100] } : Index).files =
        some entries ∧
      List.Forall₂ (fun (info : FileInfo) (e : FileEntry) =>
          e.url = "gdrive:" ++ info.id ++ "#" ++ percentEncode info.name)
        [⟨"abc", "100", "Game A", false⟩] entries :=
  (locator_entry_structure baseInput [⟨"abc", "100", "Game A", false⟩]
      { Index.new with files := some [FileEntry.new ("gdrive:abc#Game%20A") 100] } rfl).1

/-- C8: the scanned file list is deterministic and ordered — the result for
a concatenation of folder id lists is the concatenation of the results
(folders in input order), and a single folder contributes a sublist of its
listing, preserving the listing order. -/
theorem scanFolder_deterministic_order (listing : String → List FileInfo) (cfg : Input)
    (ids1 ids2 : List String) (i : String) :
    scanFolder listing { cfg with folder_ids := ids1 ++ ids2 } =
      scanFolder listing { cfg with folder_ids := ids1 } ++
        scanFolder listing { cfg with folder_ids := ids2 } ∧
    List.Sublist (scanFolder listing { cfg with folder_ids := [i] })
      ((listing i).map ParsedFileInfo.new) := by
  constructor
  · simp [scanFolder]
  · simp only [scanFolder, List.flatMap_cons, List.flatMap_nil, List.append_nil]
    exact List.filter_sublist _

/-- C9: the File Filter is a pure predicate filter, hence idempotent: for
every toggle setting, filtering the filtered list changes nothing. -/
theorem fileFilter_idempotent (a b : Bool) (l : List ParsedFileInfo) :
    fileFilter a b (fileFilter a b l) = fileFilter a b l := by
  simp [fileFilter, List.filter_filter]

/-- C10: every successful `generate_index` run sets the `files` field, so
the serialized manifest contains `files` even for an empty input list. -/
theorem generateIndex_always_sets_files (cfg : Input) (files : List ParsedFileInfo)
    (idx : Index) (h : generateIndex cfg files = .ok idx) :
    ∃ entries, idx.files = some entries ∧
      ("files", FieldVal.entries entries) ∈ serializeIndex idx := by
  obtain ⟨entries, hb, hf, hrest⟩ := generateIndex_ok_elim cfg files idx h
  refine ⟨entries, hf, ?_⟩
  rw [mem_serializeIndex]
  exact Or.inl ⟨rfl, entries, hf, rfl⟩

/-- C10 witness: the empty scan still serializes a (empty) `files` field. -/
theorem generateIndex_always_sets_files_witness :
    ∃ entries,
      ({ Index.new with files := some ([] : List FileEntry) } : Index).files = some entries ∧
      ("files", FieldVal.entries entries) ∈
        serializeIndex { Index.new with files := some ([] : List FileEntry) } :=
  generateIndex_always_sets_files baseInput [] { Index.new with files := some [] } rfl

end Rustfoil
